import Mathlib

/-!
Verification of the CyT_flowmetter process-automation core.

The Python source (TestGUI_3F_v5_cl.py, TestCO2.py, testing.py) is shallowly
embedded below.  Python floats are modelled as rationals: every constant that
appears in the verified properties (4, 20, 3.8, 20.5, 0.05, 16, ...) and every
comparison on them is exact, so the rational model agrees with the float code
on all comparisons the theorems talk about.  Wall-clock timestamps are
modelled as rational seconds; the strftime date and minute keys used by the
calendar code become floor divisions of that timestamp.
-/

namespace CyT

/-! ## Linearizer (TestGUI_3F_v5_cl.py lines 118-134, TestCO2.py lines 68-84)

The Python code reads the flow range bounds from the module globals
FLOW_MIN_SCCM and FLOW_MAX_SCCM; here they are passed as the arguments
flowMin and flowMax.  The shunt resistance SHUNT_OHMS is likewise an
argument. -/

def voltage_to_current_ma (voltage shunt_ohms : ℚ) : ℚ :=
  voltage / shunt_ohms * 1000

def current_to_flow_sccm (flowMin flowMax : ℚ) (current_ma : ℚ) : ℚ :=
  if flowMax ≤ flowMin then 0
  else
    let c := max 4 (min 20 current_ma)
    flowMin + (c - 4) * (flowMax - flowMin) / 16

/-- Status tag attached to a flow sample (strings "OK", "Bajo rango",
"Alto rango" in the source). -/
inductive FlowStatus
  | ok
  | bajoRango
  | altoRango
deriving DecidableEq, Repr

/-- The fields of one flow sample relevant to the claims: the raw current,
the linearized flow and the status tag
(TestGUI_3F_v5_cl.py lines 1730-1739, TestCO2.py lines 357-366). -/
structure FlowSample where
  current : ℚ
  flow : ℚ
  status : FlowStatus
deriving DecidableEq, Repr

/-- The status classification applied to the raw current
(TestGUI_3F_v5_cl.py lines 1732-1736): initialized to OK, overwritten with
Low-range below 3.8 mA, else High-range above 20.5 mA. -/
def flow_status (current_ma : ℚ) : FlowStatus :=
  if current_ma < 3.8 then FlowStatus.bajoRango
  else if current_ma > 20.5 then FlowStatus.altoRango
  else FlowStatus.ok

/-- The computation done by App._flow_take_sample on a successfully read
voltage: the current is derived once, the flow uses the clamped current via
current_to_flow_sccm, and the status thresholds are applied to the raw
unclamped current. -/
def flow_take_sample (shunt flowMin flowMax : ℚ) (voltage : ℚ) : FlowSample :=
  let current_ma := voltage_to_current_ma voltage shunt
  let flow := current_to_flow_sccm flowMin flowMax current_ma
  let status := flow_status current_ma
  { current := current_ma, flow := flow, status := status }

/-! ## Thermal controller state (FermenterPanel)

The per-vessel actuator state consists of the two relay intent booleans
cold_in and hot_in plus the manual-override checkbox manual_mode
(TestGUI_3F_v5_cl.py lines 770-782). -/

structure ThermoState where
  cold_in : Bool
  hot_in : Bool
  manualMode : Bool
deriving DecidableEq, Repr

/-- FermenterPanel.cerrar_todo (lines 1124-1128): unconditionally clears both
actuator intents.  Note: unlike forzar_frio and forzar_caliente it does NOT
consult _can_force. -/
def cerrar_todo (s : ThermoState) : ThermoState :=
  { s with cold_in := false, hot_in := false }

/-- FermenterPanel._can_force (lines 1105-1106). -/
def can_force (s : ThermoState) : Bool := s.manualMode

/-- FermenterPanel.forzar_frio (lines 1108-1114). -/
def forzar_frio (s : ThermoState) : ThermoState :=
  if can_force s then { s with cold_in := true, hot_in := false } else s

/-- FermenterPanel.forzar_caliente (lines 1116-1122). -/
def forzar_caliente (s : ThermoState) : ThermoState :=
  if can_force s then { s with hot_in := true, cold_in := false } else s

/-- The thermal fragment of FermenterPanel.update_process
(lines 1385-1405): skipped entirely in manual mode; otherwise the band is
floored at 0.05, the cold relay hysteresis runs, then the hot relay
hysteresis, and if both end up off cerrar_todo is invoked. -/
def thermal_step (T sp band : ℚ) (s : ThermoState) : ThermoState :=
  if s.manualMode then s
  else
    let b := max 0.05 band
    let cold :=
      if s.cold_in then (if T ≤ sp - b then false else true)
      else (if T ≥ sp + b then true else false)
    let hot :=
      if s.hot_in then (if T ≥ sp + b then false else true)
      else (if T ≤ sp - b then true else false)
    let s1 : ThermoState := { s with cold_in := cold, hot_in := hot }
    if cold = false ∧ hot = false then cerrar_todo s1 else s1

/-- One user-or-clock interaction with the vessel thermal state: a process
tick carrying the sampled temperature and the current setpoint and band
entries, a manual forcing command, or toggling the manual-override checkbox. -/
inductive VesselCmd
  | tick (T sp band : ℚ)
  | forceCold
  | forceHot
  | closeAll
  | setManual (b : Bool)

def applyCmd (s : ThermoState) : VesselCmd → ThermoState
  | .tick T sp band => thermal_step T sp band s
  | .forceCold => forzar_frio s
  | .forceHot => forzar_caliente s
  | .closeAll => cerrar_todo s
  | .setManual b => { s with manualMode := b }

/-- Initial vessel state (lines 770-773): both relays off, manual mode off. -/
def initThermo : ThermoState :=
  { cold_in := false, hot_in := false, manualMode := false }

def runCmds (cmds : List VesselCmd) : ThermoState :=
  cmds.foldl applyCmd initThermo

/-- Safety predicate: the cold and hot relay intents are not both set. -/
def thermoSafe (s : ThermoState) : Prop :=
  ¬(s.cold_in = true ∧ s.hot_in = true)

lemma thermal_step_safe (T sp band : ℚ) (s : ThermoState)
    (h : thermoSafe s) : thermoSafe (thermal_step T sp band s) := by
  have hb : sp - max 0.05 band < sp + max 0.05 band := by
    have : (0.05 : ℚ) ≤ max 0.05 band := le_max_left _ _
    have h5 : (0 : ℚ) < 0.05 := by norm_num
    linarith
  unfold thermal_step thermoSafe cerrar_todo at *
  rcases s with ⟨c, h₂, m⟩
  simp only at *
  split_ifs <;> simp_all <;> linarith

lemma applyCmd_safe (s : ThermoState) (c : VesselCmd)
    (h : thermoSafe s) : thermoSafe (applyCmd s c) := by
  cases c with
  | tick T sp band => exact thermal_step_safe T sp band s h
  | forceCold =>
      unfold applyCmd forzar_frio can_force thermoSafe at *
      split_ifs <;> simp_all
  | forceHot =>
      unfold applyCmd forzar_caliente can_force thermoSafe at *
      split_ifs <;> simp_all
  | closeAll =>
      unfold applyCmd cerrar_todo thermoSafe at *
      simp
  | setManual b =>
      unfold applyCmd thermoSafe at *
      simpa using h

lemma foldl_safe (cmds : List VesselCmd) (s : ThermoState)
    (h : thermoSafe s) : thermoSafe (cmds.foldl applyCmd s) := by
  induction cmds generalizing s with
  | nil => simpa using h
  | cons c rest ih => exact ih _ (applyCmd_safe s c h)

end CyT

/-- Claim C1: for every vessel and every sequence of temperature, setpoint and
band inputs, including manual forcing commands, after each tick of the thermal
controller the flags cold_in and hot_in are never both true at the same
time. -/
theorem CyT.claim1_never_both_relays (cmds : List CyT.VesselCmd) :
    ¬((CyT.runCmds cmds).cold_in = true ∧ (CyT.runCmds cmds).hot_in = true) :=
  CyT.foldl_safe cmds CyT.initThermo (by simp [CyT.thermoSafe, CyT.initThermo])

namespace CyT

lemma flow_status_eq_iff (c : ℚ) :
    (flow_status c = FlowStatus.bajoRango ↔ c < 3.8) ∧
    (flow_status c = FlowStatus.altoRango ↔ 20.5 < c) ∧
    (flow_status c = FlowStatus.ok ↔ 3.8 ≤ c ∧ c ≤ 20.5) := by
  unfold flow_status
  split_ifs with h1 h2 <;> refine ⟨?_, ?_, ?_⟩ <;> constructor <;> intro hx <;>
    first
      | rfl
      | assumption
      | exact absurd hx (by decide)
      | (exfalso; linarith)
      | (exfalso; obtain ⟨a, b⟩ := hx; linarith)
      | (constructor <;> linarith)

end CyT

/-- Claim C3 counterexample: the close-all command is NOT rejected when the
manual-override flag is inactive.  With cold_in set and manual mode off,
cerrar_todo still clears the actuator state, so the command is applied, not
rejected. -/
theorem CyT.claim3_counterexample :
    (⟨true, false, false⟩ : CyT.ThermoState).manualMode = false ∧
      CyT.cerrar_todo ⟨true, false, false⟩ ≠ ⟨true, false, false⟩ := by
  decide

/-- Claim C3 amended: force-cold and force-hot are rejected and leave the
actuator state unchanged when the manual-override flag is inactive, but the
close-all command is applied unconditionally, clearing both actuators
regardless of the override flag. -/
theorem CyT.claim3_force_requires_override (s : CyT.ThermoState)
    (h : s.manualMode = false) :
    CyT.forzar_frio s = s ∧ CyT.forzar_caliente s = s ∧
      CyT.cerrar_todo s = { s with cold_in := false, hot_in := false } := by
  refine ⟨?_, ?_, rfl⟩ <;>
    simp [CyT.forzar_frio, CyT.forzar_caliente, CyT.can_force, h]

/-- Witness for claim C3 amended at a concrete state. -/
theorem CyT.claim3_force_requires_override_witness :
    (⟨true, false, false⟩ : CyT.ThermoState).manualMode = false ∧
      (CyT.forzar_frio ⟨true, false, false⟩ = ⟨true, false, false⟩ ∧
        CyT.forzar_caliente ⟨true, false, false⟩ = ⟨true, false, false⟩ ∧
        CyT.cerrar_todo ⟨true, false, false⟩ =
          { (⟨true, false, false⟩ : CyT.ThermoState) with
              cold_in := false, hot_in := false }) :=
  ⟨by decide, CyT.claim3_force_requires_override ⟨true, false, false⟩ (by decide)⟩

/-- Claim C4: the status tag of a flow sample is computed from the unclamped
current, the same raw current from which the flow is computed: the status is
Low-range iff the current is below 3.8 mA, High-range iff above 20.5 mA and
OK otherwise; concretely, the voltage 0.55713 V over the default 147 ohm
shunt yields 3.79 mA, tagged Low-range, while the flow computation clamps
that current to 4 mA. -/
theorem CyT.claim4_status_from_unclamped_current (shunt mn mx v : ℚ) :
    ((CyT.flow_take_sample shunt mn mx v).current =
        CyT.voltage_to_current_ma v shunt) ∧
    ((CyT.flow_take_sample shunt mn mx v).status = CyT.FlowStatus.bajoRango ↔
        (CyT.flow_take_sample shunt mn mx v).current < 3.8) ∧
    ((CyT.flow_take_sample shunt mn mx v).status = CyT.FlowStatus.altoRango ↔
        20.5 < (CyT.flow_take_sample shunt mn mx v).current) ∧
    ((CyT.flow_take_sample shunt mn mx v).status = CyT.FlowStatus.ok ↔
        (3.8 ≤ (CyT.flow_take_sample shunt mn mx v).current ∧
          (CyT.flow_take_sample shunt mn mx v).current ≤ 20.5)) ∧
    ((CyT.flow_take_sample shunt mn mx v).flow =
        CyT.current_to_flow_sccm mn mx (CyT.flow_take_sample shunt mn mx v).current) ∧
    ((CyT.flow_take_sample 147 0 50 0.55713).current = 3.79 ∧
      (CyT.flow_take_sample 147 0 50 0.55713).status = CyT.FlowStatus.bajoRango ∧
      (CyT.flow_take_sample 147 0 50 0.55713).flow =
        CyT.current_to_flow_sccm 0 50 4) := by
  have h379 : ((0.55713 : ℚ) / 147 * 1000) = 3.79 := by norm_num
  have hcur : (CyT.flow_take_sample 147 0 50 0.55713).current = 3.79 := h379
  refine ⟨rfl, (CyT.flow_status_eq_iff _).1, (CyT.flow_status_eq_iff _).2.1,
    (CyT.flow_status_eq_iff _).2.2, rfl, hcur, ?_, ?_⟩
  · show CyT.flow_status ((0.55713 : ℚ) / 147 * 1000) = CyT.FlowStatus.bajoRango
    rw [h379]
    norm_num [CyT.flow_status]
  · show CyT.current_to_flow_sccm 0 50 ((0.55713 : ℚ) / 147 * 1000) =
      CyT.current_to_flow_sccm 0 50 4
    rw [h379]
    norm_num [CyT.current_to_flow_sccm]

/-- Claim C5: whenever the flow range is nondegenerate, current_to_flow_sccm
clamps its input to the 4-20 mA span before mapping, the mapping is affine on
that span, monotonically non-decreasing everywhere, and hits the range
endpoints exactly. -/
theorem CyT.claim5_current_to_flow_affine (mn mx c c₁ c₂ : ℚ)
    (h : mn < mx) (hc4 : 4 ≤ c) (hc20 : c ≤ 20) (h12 : c₁ ≤ c₂) :
    CyT.current_to_flow_sccm mn mx 2 = CyT.current_to_flow_sccm mn mx 4 ∧
    CyT.current_to_flow_sccm mn mx 25 = CyT.current_to_flow_sccm mn mx 20 ∧
    CyT.current_to_flow_sccm mn mx c = mn + (c - 4) * (mx - mn) / 16 ∧
    CyT.current_to_flow_sccm mn mx c₁ ≤ CyT.current_to_flow_sccm mn mx c₂ ∧
    CyT.current_to_flow_sccm mn mx 4 = mn ∧
    CyT.current_to_flow_sccm mn mx 20 = mx := by
  have hnot : ¬ mx ≤ mn := not_le.mpr h
  have hclamp : max 4 (min 20 c) = c := by
    rw [min_eq_right hc20, max_eq_right hc4]
  refine ⟨?_, ?_, ?_, ?_, ?_, ?_⟩
  · unfold CyT.current_to_flow_sccm
    simp only [hnot, if_false]
    norm_num
  · unfold CyT.current_to_flow_sccm
    simp only [hnot, if_false]
    norm_num
  · unfold CyT.current_to_flow_sccm
    simp only [hnot, if_false, hclamp]
  · unfold CyT.current_to_flow_sccm
    simp only [hnot, if_false]
    have hle : max 4 (min 20 c₁) ≤ max 4 (min 20 c₂) :=
      max_le_max (le_refl 4) (min_le_min (le_refl 20) h12)
    have hk : (0 : ℚ) ≤ mx - mn := by linarith
    have hmul : (max 4 (min 20 c₁) - 4) * (mx - mn) ≤
        (max 4 (min 20 c₂) - 4) * (mx - mn) :=
      mul_le_mul_of_nonneg_right (by linarith) hk
    linarith
  · unfold CyT.current_to_flow_sccm
    simp only [hnot, if_false]
    norm_num
  · unfold CyT.current_to_flow_sccm
    simp only [hnot, if_false]
    have h20 : max 4 (min 20 (20 : ℚ)) = 20 := by norm_num
    rw [h20]
    ring

/-- Witness for claim C5 at the default configured flow range 0-50 sccm. -/
theorem CyT.claim5_current_to_flow_affine_witness :
    ((0 : ℚ) < 50 ∧ (4 : ℚ) ≤ 10 ∧ (10 : ℚ) ≤ 20 ∧ (5 : ℚ) ≤ 6) ∧
    (CyT.current_to_flow_sccm 0 50 2 = CyT.current_to_flow_sccm 0 50 4 ∧
      CyT.current_to_flow_sccm 0 50 25 = CyT.current_to_flow_sccm 0 50 20 ∧
      CyT.current_to_flow_sccm 0 50 10 = 0 + (10 - 4) * (50 - 0) / 16 ∧
      CyT.current_to_flow_sccm 0 50 5 ≤ CyT.current_to_flow_sccm 0 50 6 ∧
      CyT.current_to_flow_sccm 0 50 4 = 0 ∧
      CyT.current_to_flow_sccm 0 50 20 = 50) :=
  ⟨by decide,
    CyT.claim5_current_to_flow_affine 0 50 10 5 6 (by decide) (by decide)
      (by decide) (by decide)⟩

namespace CyT

/-! ## Calendar schedule (TestGUI_3F_v5_cl.py lines 677-701)

A calendar is the dict mapping the date string ymd(t.date()) to a list of
events, each event a dict with a "HH:MM" time string and a numeric value.
Timestamps are rational seconds; the strftime keys become floor divisions:
the date key is the day index, the minute key the absolute minute index and
the time-of-day key the minute within the day.  For zero-padded "HH:MM"
strings the Python string comparison used by the code coincides with the
numeric order of the minute-of-day, which is how the events are compared
here. -/

structure CalEvent where
  time : ℤ
  value : ℚ
deriving DecidableEq, Repr

abbrev Schedule := List (ℤ × List CalEvent)

def dateKey (t : ℚ) : ℤ := ⌊t / 86400⌋

def minuteKey (t : ℚ) : ℤ := ⌊t / 60⌋

def hhmmKey (t : ℚ) : ℤ := minuteKey t % 1440

/-- Ordering used by sorted(todays, key=lambda e: e["time"]).  Python uses a
stable sort; List.insertionSort with this relation inserts a new element
before existing equal elements, which preserves list order among ties, so
it computes the same list as any stable sort by the time key. -/
def timeLE (a b : CalEvent) : Prop := a.time ≤ b.time

instance : DecidableRel timeLE :=
  fun a b => inferInstanceAs (Decidable (a.time ≤ b.time))

instance : IsTotal CalEvent timeLE := ⟨fun a b => le_total a.time b.time⟩

instance : IsTrans CalEvent timeLE := ⟨fun _ _ _ hab hbc => le_trans hab hbc⟩

/-- sp_from_date_calendar (lines 678-690): the empty-dict guard, the
missing-date guard, the filter keeping events at or before the current
time-of-day, the empty-filter guard, the stable sort by time and the value
of the last sorted event. -/
def sp_from_date_calendar (sched : Schedule) (t : ℚ) (default : ℚ) : ℚ :=
  if sched = [] then default
  else if (sched.lookup (dateKey t)).getD [] = [] then default
  else if ((sched.lookup (dateKey t)).getD []).filter
      (fun e => e.time ≤ hhmmKey t) = [] then default
  else
    match (List.insertionSort timeLE
        (((sched.lookup (dateKey t)).getD []).filter
          (fun e => e.time ≤ hhmmKey t))).getLast? with
    | some e => e.value
    | none => default

/-- nut_fire_for_minute (lines 693-701): the values of the events of the
current date whose time equals the current minute. -/
def nut_fire_for_minute (sched : Schedule) (t : ℚ) : List ℚ :=
  if sched = [] then []
  else if (sched.lookup (dateKey t)).getD [] = [] then []
  else
    (((sched.lookup (dateKey t)).getD []).filter
      (fun e => e.time = hhmmKey t)).map (·.value)

/-- The spec description of value_at, stated independently of the sorting
implementation: the latest event of the list, with ties between equal times
broken in favour of the later list entry.  lastMax l scans l and keeps the
last element attaining the maximal time. -/
def lastMax : List CalEvent → Option CalEvent
  | [] => none
  | e :: l =>
      match lastMax l with
      | none => some e
      | some a => if a.time < e.time then some e else some a

/-- Spec-worded value_at: among the events on the date of t whose
time-of-day is at most the time-of-day of t, the value of the latest one
(ties broken by list order), or the default when there is none. -/
def value_at_spec (sched : Schedule) (t : ℚ) (default : ℚ) : ℚ :=
  match lastMax (((sched.lookup (dateKey t)).getD []).filter
      (fun e => e.time ≤ hhmmKey t)) with
  | some e => e.value
  | none => default

/-! ## Dosing controller state (FermenterPanel, lines 778-782, 1362-1377) -/

structure DoseState where
  lastMin : Option ℤ
  nut_running_until : Option ℚ
  nut_led_on : Bool
  manual_nut_on : Bool
deriving DecidableEq, Repr

/-- FermenterPanel._apply_nutricion_state (lines 1207-1213): records the
should-run flag in _nut_led_on; the stepper start/stop hardware calls are
edge-triggered side effects and carry no further state. -/
def apply_nutricion_state (s : DoseState) (should_run : Bool) : DoseState :=
  { s with nut_led_on := should_run }

/-- The minute-fire fragment of update_process (lines 1362-1370): guarded by
the last-processed-minute marker; on a new minute the dose values of the
events at that exact minute are summed over the strictly positive ones, and a
positive total opens the dosing window and starts the pump.  The returned
Bool reports whether the pump start for a new window was issued. -/
def fire_step (cal : Schedule) (s : DoseState) (tnow : ℚ) : DoseState × Bool :=
  if s.lastMin = some (minuteKey tnow) then (s, false)
  else if nut_fire_for_minute cal tnow = [] then
    ({ s with lastMin := some (minuteKey tnow) }, false)
  else if 0 < ((nut_fire_for_minute cal tnow).filter (fun d => 0 < d)).sum then
    ({ s with
        nut_running_until :=
          some (tnow + ((nut_fire_for_minute cal tnow).filter
            (fun d => 0 < d)).sum),
        lastMin := some (minuteKey tnow) }, true)
  else ({ s with lastMin := some (minuteKey tnow) }, false)

/-- The window fragment of update_process (lines 1372-1377): schedule-driven
dosing is active while now is before nut_running_until, an expired window is
cleared, and the pump-should-run state is schedule_active or manual_nut_on. -/
def schedule_active (s : DoseState) (tnow : ℚ) : Bool :=
  match s.nut_running_until with
  | some u => decide (tnow < u)
  | none => false

def window_step (s : DoseState) (tnow : ℚ) : DoseState :=
  if schedule_active s tnow then
    apply_nutricion_state s (schedule_active s tnow || s.manual_nut_on)
  else
    apply_nutricion_state { s with nut_running_until := none }
      (schedule_active s tnow || s.manual_nut_on)

/-- The dosing portion of one update_process tick: the minute fire check
followed by the window check. -/
def dose_tick (cal : Schedule) (s : DoseState) (tnow : ℚ) : DoseState × Bool :=
  (window_step (fire_step cal s tnow).1 tnow, (fire_step cal s tnow).2)

/-! ## DS18B20 temperature read (Hardware.read_temp_ds18b20, lines 187-207)

The real-hardware read attempt either parses a payload of m milli-degrees or
fails (unreadable file, fewer than two lines, CRC line without YES, or an
unparsable t= payload): every failure raises and is handled identically by
the except branch. -/

inductive DsRead
  | ok (milli : ℤ)
  | failed

structure TempRead where
  value : ℚ
  last_temp_error : Bool
  logged : Bool
deriving DecidableEq, Repr

/-- Hardware.read_temp_ds18b20 on the real-hardware path, as written: on
success the payload is divided by 1000; on failure the except branch logs
the warning when _last_temp_error is clear and sets the flag, then returns
the 20 degree fallback.  The finally branch runs on BOTH paths and resets
_last_temp_error to False, clobbering the True just written by the except
branch. -/
def read_temp_ds18b20 (r : DsRead) (last_temp_error : Bool) : TempRead :=
  match r with
  | .ok m => { value := (m : ℚ) / 1000, last_temp_error := false, logged := false }
  | .failed => { value := 20, last_temp_error := false, logged := !last_temp_error }

/-! ## CSV writers (lines 1277-1327 and 1695-1714)

A file is modelled as None (absent) or its list of lines; a line is either
the header row or a data row. -/

inductive CsvLine (α : Type)
  | header
  | data (row : α)
deriving DecidableEq, Repr

/-- The per-instrument sink of FermenterPanel._csv_write_row (lines
1290-1299) and of App._co2_csv_write_row (lines 1704-1712): the header is
written exactly when the file does not exist (cabe = not os.path.exists);
the row is then appended. -/
def csv_write_row_instrument {α : Type} (file : Option (List (CsvLine α)))
    (row : α) : List (CsvLine α) :=
  file.getD [] ++
    (if file.isNone then [CsvLine.header, CsvLine.data row]
     else [CsvLine.data row])

/-- The shared backup sink of FermenterPanel._csv_write_row (lines
1303-1325): the header is written when the file does not exist OR has size
zero; the row is then appended. -/
def csv_write_row_backup {α : Type} (file : Option (List (CsvLine α)))
    (row : α) : List (CsvLine α) :=
  let prev := file.getD []
  prev ++
    (if file.isNone || prev.isEmpty then [CsvLine.header, CsvLine.data row]
     else [CsvLine.data row])

end CyT

namespace CyT

lemma getLast?_orderedInsert (a : CalEvent) :
    ∀ (s : List CalEvent), List.Sorted timeLE s →
      (List.orderedInsert timeLE a s).getLast? =
        some ((s.getLast?).elim a (fun b => if timeLE a b then b else a))
  | [], _ => by simp [List.orderedInsert]
  | b :: l, hs => by
      by_cases hab : timeLE a b
      · simp only [List.orderedInsert, if_pos hab, List.getLast?_cons_cons]
        have hne : (b :: l) ≠ ([] : List CalEvent) := by simp
        rw [List.getLast?_eq_getLast_of_ne_nil hne]
        have hc : (b :: l).getLast hne ∈ b :: l := List.getLast_mem hne
        have hac : timeLE a ((b :: l).getLast hne) := by
          rcases List.mem_cons.mp hc with h | h
          · rw [h]; exact hab
          · exact Trans.trans hab (List.rel_of_sorted_cons hs _ h)
        simp [Option.elim, if_pos hac]
      · simp only [List.orderedInsert, if_neg hab]
        cases l with
        | nil =>
            simp [List.orderedInsert, Option.elim, if_neg hab]
        | cons c l2 =>
            have ih := getLast?_orderedInsert a (c :: l2) hs.of_cons
            cases hoi : List.orderedInsert timeLE a (c :: l2) with
            | nil =>
                exfalso
                have := List.orderedInsert_length timeLE (c :: l2) a
                rw [hoi] at this
                simp at this
            | cons x xs =>
                rw [hoi] at ih
                rw [List.getLast?_cons_cons, ih, List.getLast?_cons_cons]

lemma getLast?_insertionSort :
    ∀ (m : List CalEvent), (List.insertionSort timeLE m).getLast? = lastMax m
  | [] => rfl
  | e :: m => by
      have hs : List.Sorted timeLE (List.insertionSort timeLE m) :=
        List.sorted_insertionSort timeLE m
      simp only [List.insertionSort]
      rw [getLast?_orderedInsert e _ hs, getLast?_insertionSort m]
      cases hlm : lastMax m with
      | none => simp [lastMax, hlm, Option.elim]
      | some a =>
          simp only [lastMax, hlm, Option.elim]
          by_cases hlt : a.time < e.time
          · rw [if_pos hlt, if_neg (by simp [timeLE]; omega)]
          · rw [if_neg hlt, if_pos (by simp [timeLE]; omega)]

lemma sp_from_date_calendar_eq_spec (sched : Schedule) (t : ℚ) (d : ℚ) :
    sp_from_date_calendar sched t d = value_at_spec sched t d := by
  unfold sp_from_date_calendar value_at_spec
  by_cases h0 : sched = []
  · subst h0
    simp [lastMax]
  · rw [if_neg h0]
    cases hfl : (sched.lookup (dateKey t)).getD [] with
    | nil => simp [lastMax]
    | cons e rest =>
        rw [if_neg (List.cons_ne_nil e rest)]
        by_cases ht :
            (e :: rest).filter (fun x => decide (x.time ≤ hhmmKey t)) = []
        · rw [if_pos ht, ht]
          simp [lastMax]
        · rw [if_neg ht, getLast?_insertionSort]

/-- The calendar of the spec example for value_at: day 0 with events
08:00 -> 20.0 and 14:00 -> 22.0 (480 and 840 minutes of the day).  The
timestamps 07:59, 08:00, 13:59 and 14:00 of that day are the seconds
28740, 28800, 50340 and 50400. -/
def calValueAtExample : Schedule := [((0 : ℤ), [⟨480, 20⟩, ⟨840, 22⟩])]

/-- The initial dosing state of a freshly constructed FermenterPanel
(lines 778-782): no minute processed yet, no running window, pump led off,
manual dosing off. -/
def doseInit : DoseState :=
  { lastMin := none, nut_running_until := none,
    nut_led_on := false, manual_nut_on := false }

/-- The calendar of the spec example for the minute fire: day 0 with one
dosing event at 09:00 (minute 540) of 30 seconds. -/
def calFireExample : Schedule := [((0 : ℤ), [⟨540, 30⟩])]

/-- A calendar with several dosing events in the same minute 09:00 of day 0,
one of them non-positive. -/
def calMultiExample : Schedule := [((0 : ℤ), [⟨540, 10⟩, ⟨540, -5⟩, ⟨540, 20⟩])]

lemma fire_step_lastMin (cal : Schedule) (s : DoseState) (t : ℚ) :
    (fire_step cal s t).1.lastMin = some (minuteKey t) := by
  unfold fire_step
  split_ifs with h1 h2 h3 <;> simp [h1]

lemma fire_step_same_minute (cal : Schedule) (s : DoseState) (t : ℚ)
    (h : s.lastMin = some (minuteKey t)) : fire_step cal s t = (s, false) := by
  unfold fire_step
  rw [if_pos h]

lemma window_step_lastMin (s : DoseState) (t : ℚ) :
    (window_step s t).lastMin = s.lastMin := by
  unfold window_step apply_nutricion_state
  split_ifs <;> rfl

lemma fire_step_skip (cal : Schedule) (s : DoseState) (t : ℚ)
    (h : nut_fire_for_minute cal t = [] ∨ s.lastMin = some (minuteKey t)) :
    (fire_step cal s t).1.nut_running_until = s.nut_running_until ∧
      (fire_step cal s t).1.manual_nut_on = s.manual_nut_on := by
  unfold fire_step
  rcases h with h | h
  · split_ifs with h1 h2 h3 <;> simp_all
  · rw [if_pos h]
    exact ⟨rfl, rfl⟩

lemma window_step_led (s : DoseState) (t : ℚ) :
    (window_step s t).nut_led_on = (schedule_active s t || s.manual_nut_on) := by
  unfold window_step apply_nutricion_state
  split_ifs <;> rfl

lemma schedule_active_iff (s : DoseState) (t : ℚ) :
    schedule_active s t = true ↔
      ∃ u, s.nut_running_until = some u ∧ t < u := by
  unfold schedule_active
  cases s.nut_running_until <;> simp

lemma minuteKey_fire_example : minuteKey 32400 = minuteKey 32430 := by
  norm_num [minuteKey]

lemma first_tick_fires :
    (dose_tick calFireExample doseInit 32400).2 = true := by
  have hf : nut_fire_for_minute calFireExample 32400 = [30] := by
    norm_num [nut_fire_for_minute, calFireExample, dateKey, hhmmKey,
      minuteKey, List.lookup, List.filter, List.cons_ne_nil]
  show (fire_step calFireExample doseInit 32400).2 = true
  unfold fire_step
  rw [if_neg (by simp [doseInit]), hf]
  norm_num [List.filter, List.sum]

end CyT

/-- Claim C2: the claim states that on malformed or unreadable hardware
temperature reads the fallback 20 degrees is returned and the warning is
logged exactly once across consecutive failing reads.  The fallback part
holds, but the warning is logged on EVERY failing read: the finally branch
of read_temp_ds18b20 resets _last_temp_error to False on all exit paths,
including the failure path that just set it, so a second consecutive failure
logs again.  This theorem evaluates the model of the code at two consecutive
failing reads: both log. -/
theorem CyT.claim2_warning_relogged_on_second_failure :
    (CyT.read_temp_ds18b20 CyT.DsRead.failed false).value = 20 ∧
    (CyT.read_temp_ds18b20 CyT.DsRead.failed false).logged = true ∧
    (CyT.read_temp_ds18b20 CyT.DsRead.failed false).last_temp_error = false ∧
    (CyT.read_temp_ds18b20 CyT.DsRead.failed
      (CyT.read_temp_ds18b20 CyT.DsRead.failed false).last_temp_error).logged
      = true := by
  refine ⟨rfl, rfl, rfl, rfl⟩

/-- Claim C6: sp_from_date_calendar returns the value of the latest event on
the date of the timestamp whose time-of-day is at most the time-of-day of the
timestamp, ties between equal times broken by list order, and the default
when no such event exists; on the example calendar with events 08:00 -> 20
and 14:00 -> 22, the lookups at 07:59, 08:00, 13:59 and 14:00 give the
default, 20, 20 and 22. -/
theorem CyT.claim6_value_at_latest_event (sched : CyT.Schedule) (t d : ℚ) :
    CyT.sp_from_date_calendar sched t d = CyT.value_at_spec sched t d ∧
    (∀ dflt : ℚ,
      CyT.sp_from_date_calendar CyT.calValueAtExample 28740 dflt = dflt ∧
      CyT.sp_from_date_calendar CyT.calValueAtExample 28800 dflt = 20 ∧
      CyT.sp_from_date_calendar CyT.calValueAtExample 50340 dflt = 20 ∧
      CyT.sp_from_date_calendar CyT.calValueAtExample 50400 dflt = 22) := by
  refine ⟨CyT.sp_from_date_calendar_eq_spec sched t d, fun dflt => ⟨?_, ?_, ?_, ?_⟩⟩ <;>
    norm_num [CyT.sp_from_date_calendar, CyT.calValueAtExample, CyT.dateKey,
      CyT.hhmmKey, CyT.minuteKey, List.lookup, CyT.timeLE, List.insertionSort,
      List.orderedInsert, List.filter, List.cons_ne_nil]

/-- Claim C7: the dosing start fires at most once per calendar minute: after
any tick, a further tick whose timestamp falls in the same minute never
starts a dose, because the controller records the last minute processed. -/
theorem CyT.claim7_at_most_one_fire_per_minute (cal : CyT.Schedule)
    (s : CyT.DoseState) (t1 t2 : ℚ)
    (h : CyT.minuteKey t1 = CyT.minuteKey t2) :
    (CyT.dose_tick cal (CyT.dose_tick cal s t1).1 t2).2 = false := by
  have hl : (CyT.window_step (CyT.fire_step cal s t1).1 t1).lastMin =
      some (CyT.minuteKey t2) := by
    rw [CyT.window_step_lastMin, CyT.fire_step_lastMin, h]
  show (CyT.fire_step cal (CyT.window_step (CyT.fire_step cal s t1).1 t1) t2).2
      = false
  rw [CyT.fire_step_same_minute cal _ t2 hl]

/-- Witness for claim C7 at the spec example: one dosing event at 09:00 of
30 seconds and two ticks at 09:00:00 and 09:00:30; the first tick starts the
dose, the second tick of the same minute does not. -/
theorem CyT.claim7_at_most_one_fire_per_minute_witness :
    CyT.minuteKey 32400 = CyT.minuteKey 32430 ∧
    (CyT.dose_tick CyT.calFireExample CyT.doseInit 32400).2 = true ∧
    (CyT.dose_tick CyT.calFireExample
      (CyT.dose_tick CyT.calFireExample CyT.doseInit 32400).1 32430).2 = false :=
  ⟨CyT.minuteKey_fire_example, CyT.first_tick_fires,
    CyT.claim7_at_most_one_fire_per_minute CyT.calFireExample CyT.doseInit
      32400 32430 CyT.minuteKey_fire_example⟩

/-- Claim C8: on a tick that does not itself fire a new minute event, the
pump-should-run state after the tick is true exactly when the schedule
window is still open (now is before nut_running_until) or the manual dosing
toggle is on; in particular the pump keeps running on every tick before the
window end, stops on the first tick at or after it, and keeps running after
the window only while manual is on. -/
theorem CyT.claim8_pump_runs_iff_schedule_or_manual (cal : CyT.Schedule)
    (s : CyT.DoseState) (t : ℚ)
    (h : CyT.nut_fire_for_minute cal t = [] ∨
      s.lastMin = some (CyT.minuteKey t)) :
    ((CyT.dose_tick cal s t).1.nut_led_on = true ↔
      ((∃ u, s.nut_running_until = some u ∧ t < u) ∨
        s.manual_nut_on = true)) := by
  obtain ⟨hu, hm⟩ := CyT.fire_step_skip cal s t h
  show (CyT.window_step (CyT.fire_step cal s t).1 t).nut_led_on = true ↔ _
  rw [CyT.window_step_led, Bool.or_eq_true, hm]
  constructor
  · rintro (hs | hs)
    · left
      obtain ⟨u, hu2, hlt⟩ := (CyT.schedule_active_iff _ _).mp hs
      exact ⟨u, by rw [← hu]; exact hu2, hlt⟩
    · right; exact hs
  · rintro (⟨u, hu2, hlt⟩ | hs)
    · left
      exact (CyT.schedule_active_iff _ _).mpr ⟨u, by rw [hu]; exact hu2, hlt⟩
    · right; exact hs

/-- Witness for claim C8: a vessel with an open 30 second window checked at
second 10 with an empty calendar; the pump is reported running. -/
theorem CyT.claim8_pump_runs_iff_schedule_or_manual_witness :
    (CyT.nut_fire_for_minute [] 10 = [] ∨
      CyT.DoseState.lastMin
        ⟨none, some 30, false, false⟩ = some (CyT.minuteKey 10)) ∧
    ((CyT.dose_tick [] ⟨none, some 30, false, false⟩ 10).1.nut_led_on = true ↔
      ((∃ u, CyT.DoseState.nut_running_until
          ⟨none, some 30, false, false⟩ = some u ∧ (10 : ℚ) < u) ∨
        CyT.DoseState.manual_nut_on ⟨none, some 30, false, false⟩ = true)) :=
  ⟨Or.inl rfl,
    CyT.claim8_pump_runs_iff_schedule_or_manual [] ⟨none, some 30, false, false⟩
      10 (Or.inl rfl)⟩

/-- Claim C10: on the first tick of a minute, the minute fire opens a single
dosing window ending at now plus the sum of the strictly positive event
durations of that minute and starts the pump; when no event of the minute
has a strictly positive duration, no window is opened and no pump start is
issued. -/
theorem CyT.claim10_window_is_sum_of_positive_durations (cal : CyT.Schedule)
    (s : CyT.DoseState) (t : ℚ)
    (h : ¬ s.lastMin = some (CyT.minuteKey t)) :
    (0 < ((CyT.nut_fire_for_minute cal t).filter (fun d => 0 < d)).sum →
      CyT.fire_step cal s t =
        ({ s with
            nut_running_until :=
              some (t + ((CyT.nut_fire_for_minute cal t).filter
                (fun d => 0 < d)).sum),
            lastMin := some (CyT.minuteKey t) }, true)) ∧
    (¬ 0 < ((CyT.nut_fire_for_minute cal t).filter (fun d => 0 < d)).sum →
      CyT.fire_step cal s t =
        ({ s with lastMin := some (CyT.minuteKey t) }, false)) := by
  unfold CyT.fire_step
  rw [if_neg h]
  constructor
  · intro hpos
    have hne : ¬ CyT.nut_fire_for_minute cal t = [] := by
      intro he
      rw [he] at hpos
      simp at hpos
    rw [if_neg hne, if_pos hpos]
  · intro hneg
    by_cases hd : CyT.nut_fire_for_minute cal t = []
    · rw [if_pos hd]
    · rw [if_neg hd, if_neg hneg]

/-- Witness for claim C10: three events in the same minute with durations
10, -5 and 20 seconds; the single window opened on the first tick of the
minute ends 30 seconds after now. -/
theorem CyT.claim10_window_is_sum_of_positive_durations_witness :
    (¬ CyT.doseInit.lastMin = some (CyT.minuteKey 32400)) ∧
    ((0 < ((CyT.nut_fire_for_minute CyT.calMultiExample 32400).filter
        (fun d => 0 < d)).sum →
      CyT.fire_step CyT.calMultiExample CyT.doseInit 32400 =
        ({ CyT.doseInit with
            nut_running_until :=
              some (32400 + ((CyT.nut_fire_for_minute CyT.calMultiExample
                32400).filter (fun d => 0 < d)).sum),
            lastMin := some (CyT.minuteKey 32400) }, true)) ∧
    (¬ 0 < ((CyT.nut_fire_for_minute CyT.calMultiExample 32400).filter
        (fun d => 0 < d)).sum →
      CyT.fire_step CyT.calMultiExample CyT.doseInit 32400 =
        ({ CyT.doseInit with lastMin := some (CyT.minuteKey 32400) }, false))) :=
  ⟨by simp [CyT.doseInit],
    CyT.claim10_window_is_sum_of_positive_durations CyT.calMultiExample
      CyT.doseInit 32400 (by simp [CyT.doseInit])⟩

/-- Claim C9 counterexample: the per-instrument sink decides the header on
file existence only, so an append to an existing but empty file writes NO
header before the data row, against the claim that an append to a file that
does not exist or is empty writes one. -/
theorem CyT.claim9_counterexample :
    CyT.csv_write_row_instrument (some ([] : List (CyT.CsvLine ℕ))) 0 =
      [CyT.CsvLine.data 0] ∧
    CyT.CsvLine.header ∉
      CyT.csv_write_row_instrument (some ([] : List (CyT.CsvLine ℕ))) 0 := by
  refine ⟨rfl, by decide⟩

/-- Claim C9 amended: the shared backup sink writes the header exactly when
the file is absent or empty; the per-instrument sinks write the header only
when the file is absent (an existing empty file gets no header); in every
sink a second append to the now nonempty file writes no additional header,
only one data row. -/
theorem CyT.claim9_header_on_create {α : Type} (r r2 : α)
    (ls : List (CyT.CsvLine α)) (h : ls ≠ []) :
    CyT.csv_write_row_instrument none r =
      [CyT.CsvLine.header, CyT.CsvLine.data r] ∧
    CyT.csv_write_row_instrument (some ls) r = ls ++ [CyT.CsvLine.data r] ∧
    CyT.csv_write_row_backup none r =
      [CyT.CsvLine.header, CyT.CsvLine.data r] ∧
    CyT.csv_write_row_backup (some ([] : List (CyT.CsvLine α))) r =
      [CyT.CsvLine.header, CyT.CsvLine.data r] ∧
    CyT.csv_write_row_backup (some ls) r = ls ++ [CyT.CsvLine.data r] ∧
    CyT.csv_write_row_instrument
        (some (CyT.csv_write_row_instrument none r)) r2 =
      [CyT.CsvLine.header, CyT.CsvLine.data r, CyT.CsvLine.data r2] ∧
    CyT.csv_write_row_backup (some (CyT.csv_write_row_backup none r)) r2 =
      [CyT.CsvLine.header, CyT.CsvLine.data r, CyT.CsvLine.data r2] := by
  have hemp : ls.isEmpty = false := by
    cases ls with
    | nil => exact absurd rfl h
    | cons a l => rfl
  refine ⟨rfl, ?_, rfl, rfl, ?_, rfl, rfl⟩ <;>
    simp [CyT.csv_write_row_instrument, CyT.csv_write_row_backup,
      Option.isNone, hemp]

/-- Witness for claim C9 amended on a one-line existing file. -/
theorem CyT.claim9_header_on_create_witness :
    ([CyT.CsvLine.data 5] : List (CyT.CsvLine ℕ)) ≠ [] ∧
    (CyT.csv_write_row_instrument none 0 =
      [CyT.CsvLine.header, CyT.CsvLine.data 0] ∧
    CyT.csv_write_row_instrument (some [CyT.CsvLine.data 5]) 0 =
      [CyT.CsvLine.data 5] ++ [CyT.CsvLine.data 0] ∧
    CyT.csv_write_row_backup none 0 =
      [CyT.CsvLine.header, CyT.CsvLine.data 0] ∧
    CyT.csv_write_row_backup (some ([] : List (CyT.CsvLine ℕ))) 0 =
      [CyT.CsvLine.header, CyT.CsvLine.data 0] ∧
    CyT.csv_write_row_backup (some [CyT.CsvLine.data 5]) 0 =
      [CyT.CsvLine.data 5] ++ [CyT.CsvLine.data 0] ∧
    CyT.csv_write_row_instrument
        (some (CyT.csv_write_row_instrument none 0)) 1 =
      [CyT.CsvLine.header, CyT.CsvLine.data 0, CyT.CsvLine.data 1] ∧
    CyT.csv_write_row_backup (some (CyT.csv_write_row_backup none 0)) 1 =
      [CyT.CsvLine.header, CyT.CsvLine.data 0, CyT.CsvLine.data 1]) :=
  ⟨by decide, CyT.claim9_header_on_create 0 1 [CyT.CsvLine.data 5] (by decide)⟩
